import Mathlib

/-!
Verification of the ai-interview-assistant frontend core against its
natural-language specification.

The definitions below are a shallow embedding of the TypeScript sources:

* `src/frontend/src/hooks/useAudioCapture.ts` — per-channel utterance
  assembly (`startHrRecording` / `startCandidateRecording` `onmessage`
  handlers, `stopHrRecording` / `stopCandidateRecording` flush, the
  microphone worklet buffering and its fallback path, and the
  audio-frame send guard).
* `src/frontend/src/hooks/useWebSocketLite.ts` (`useWebSocketOptimized`)
  and `src/frontend/src/hooks/useWebSocket.ts` — ControlChannel
  `send` / `sendTranscript` and the reconnect/backoff state machine
  (`handleClose`, `socket.onopen`).
* `src/ainterview-web/src/hooks/useWebSocket.ts` — the legacy
  ControlChannel variant (`awHandleClose`, `awHandleOpen`).
* `src/frontend/src/pages/Interview.tsx` — the publisher path
  `handleTranscript`.

The HR and Candidate handlers in `useAudioCapture.ts` are textually
identical up to the speaker label and the refs they touch; they are
embedded once, parameterised by the speaker string.
-/

namespace AIIA

/-- Model of JavaScript `String.prototype.trim`: drop whitespace from
both ends.  (`Char.isWhitespace` covers space, tab, CR, LF — the
characters occurring in this program's data.) -/
def jsTrim (s : String) : String :=
  ⟨((s.data.dropWhile Char.isWhitespace).reverse.dropWhile Char.isWhitespace).reverse⟩

/-- Model of JavaScript `String.prototype.toLowerCase` for the ASCII
speaker labels used by this program. -/
def jsToLower (s : String) : String :=
  ⟨s.data.map Char.toLower⟩

/-- Wire event from the transcription engine, fields as destructured in
`useAudioCapture.ts` `onmessage`: `const { transcript, end_of_turn,
turn_is_formatted, turn_order } = msg`. -/
structure TurnEvent where
  transcript : String
  end_of_turn : Bool
  turn_is_formatted : Bool
  turn_order : Nat
  deriving DecidableEq, Repr

/-- Structure `AudioBlock` from `useAudioCapture.ts` (ids modelled as `Nat`,
standing for the `turn_${Date.now()}` strings). -/
structure AudioBlock where
  id : Nat
  speaker : String
  transcript : String
  timestamp : Nat
  deriving DecidableEq, Repr

/-- Structure `PartialTranscript` from `useAudioCapture.ts`. -/
structure PartialOut where
  id : Nat
  speaker : String
  text : String
  timestamp : Nat
  deriving DecidableEq, Repr

/-- Per-channel assembler state held in the refs of `useAudioCapture.ts`:
`hrBlockIdRef` / `candidateBlockIdRef`, `hrBlockTranscriptRef` /
`candidateBlockTranscriptRef`, `hrMicRef.current.activeTurns` /
`candidateMicRef.current.activeTurns` (kept as an ascending-key
association list, matching `Object.values` enumeration order of
integer-keyed properties), and `hrBlockSentRef` / `candidateBlockSentRef`. -/
structure AsmState where
  blockId : Nat
  committedText : String
  slots : List (Nat × String)
  blockSent : Bool
  deriving DecidableEq, Repr

/-- Assignment `activeTurns[turn_order] = transcript`: last-write-wins update of the
integer-keyed object, keeping keys in ascending order. -/
def updateSlot : List (Nat × String) → Nat → String → List (Nat × String)
  | [], k, v => [(k, v)]
  | (k', v') :: rest, k, v =>
    if k < k' then (k, v) :: (k', v') :: rest
    else if k = k' then (k, v) :: rest
    else (k', v') :: updateSlot rest k v

/-- Guarded merge `if (transcript) { activeTurns[turn_order] = transcript }` — the slot
map after merging one event (empty string is falsy in JS). -/
def slotsAfter (s : AsmState) (e : TurnEvent) : List (Nat × String) :=
  if e.transcript ≠ "" then updateSlot s.slots e.turn_order e.transcript else s.slots

/-- Join `Object.values(activeTurns).join(' ')`. -/
def activeText (slots : List (Nat × String)) : String :=
  String.intercalate " " (slots.map Prod.snd)

/-- Expression `(blockTranscript + ' ' + activeText).trim()` — the display text. -/
def displayOf (committed : String) (slots : List (Nat × String)) : String :=
  jsTrim (committed ++ " " ++ activeText slots)

/-- The display text the handler computes after merging event `e` into
state `s`. -/
def displayAfter (s : AsmState) (e : TurnEvent) : String :=
  displayOf s.committedText (slotsAfter s e)

/-- Result of one `onmessage` invocation: next state plus the partial and
final blocks emitted during it (in emission order; each list has at most
one element). -/
structure TurnOut where
  state : AsmState
  partials : List PartialOut
  finals : List AudioBlock
  deriving Repr

/-- The `msg.type === 'Turn'` branch of the `onmessage` handlers in
`startHrRecording` / `startCandidateRecording` (`useAudioCapture.ts`).
`now` is `Date.now()` at delivery time; the freshly minted block id
`turn_${Date.now()}` is modelled as `now`.  Note that the finalize
branch sets the sent flag to `true` and then, in the same synchronous
reset, back to `false` — the net post-state carries `blockSent := false`. -/
def handleTurn (speaker : String) (s : AsmState) (e : TurnEvent) (now : Nat) : TurnOut :=
  if e.end_of_turn ∧ e.turn_is_formatted ∧ displayAfter s e ≠ "" ∧ s.blockSent = false then
    { state := { blockId := now, committedText := "", slots := [], blockSent := false },
      partials :=
        if displayAfter s e ≠ "" then [⟨s.blockId, speaker, displayAfter s e, now⟩] else [],
      finals := [⟨s.blockId, speaker, displayAfter s e, now⟩] }
  else
    { state := { s with slots := slotsAfter s e },
      partials :=
        if displayAfter s e ≠ "" then [⟨s.blockId, speaker, displayAfter s e, now⟩] else [],
      finals := [] }

/-- Delivering the same event twice in a row; returns all Final blocks
emitted across the two invocations. -/
def deliverTwice (speaker : String) (s : AsmState) (e : TurnEvent)
    (now₁ now₂ : Nat) : List AudioBlock :=
  let o₁ := handleTurn speaker s e now₁
  let o₂ := handleTurn speaker o₁.state e now₂
  o₁.finals ++ o₂.finals

/-- Step 4 of `stopHrRecording` / `stopCandidateRecording`
(`useAudioCapture.ts`): `if (blockTranscriptRef.current.trim() && onTranscriptRef.current)`
send `{id, speaker, transcript: blockTranscriptRef.current, timestamp: Date.now()}`. -/
def stopFlush (speaker : String) (s : AsmState) (now : Nat) : List AudioBlock :=
  if jsTrim s.committedText ≠ "" then
    [⟨s.blockId, speaker, s.committedText, now⟩]
  else []

/-! ### ControlChannel: socket send (`useWebSocketLite.ts` `send`,
`useWebSocket.ts` `send`) -/

/-- Constants of `WebSocket.readyState`. -/
inductive ReadyState
  | CONNECTING
  | OPEN
  | CLOSING
  | CLOSED
  deriving DecidableEq, Repr

/-- Function `useWebSocketOptimized.send` / `useWebSocket.send` (identical in both
frontend hooks): `if (wsRef.current && wsRef.current.readyState ===
WebSocket.OPEN) { wsRef.current.send(JSON.stringify(message)); return
true } ... return false`.  The socket ref is `Option ReadyState`
(`none` = `wsRef.current === null`); the second component is the list
of messages actually put on the wire by this call. -/
def send {α : Type} (ws : Option ReadyState) (message : α) : Bool × List α :=
  match ws with
  | some rs => if rs = ReadyState.OPEN then (true, [message]) else (false, [])
  | none => (false, [])

/-- The `{type:'transcript', payload:{speaker, text, timestamp}}` payload
built by `sendTranscript`. -/
structure TranscriptMsg where
  speaker : String
  text : String
  timestamp : Nat
  deriving DecidableEq, Repr

/-- Function `useWebSocketOptimized.sendTranscript` / `useWebSocket.sendTranscript`
(identical in both frontend hooks):
`(speaker, text, timestamp?) => { if (!text?.trim()) return false;
return send({type:'transcript', payload:{speaker: speaker.toLowerCase(),
text, timestamp: timestamp ?? Date.now()}}) }`.
`text : Option String` models a possibly `undefined` argument; `now` is
`Date.now()` for the defaulted timestamp. -/
def sendTranscript (ws : Option ReadyState) (speaker : String)
    (text : Option String) (timestamp : Option Nat) (now : Nat) : Bool × List TranscriptMsg :=
  match text with
  | none => (false, [])
  | some t =>
    if jsTrim t = "" then (false, [])
    else send ws ⟨jsToLower speaker, t, timestamp.getD now⟩

/-! ### TranscriptPublisher: `Interview.tsx` `handleTranscript` -/

/-- Expression `const speakerLabel = block.speaker === 'HR' ? 'HR' : 'CANDIDATE'`. -/
def speakerLabel (b : AudioBlock) : String :=
  if b.speaker = "HR" then "HR" else "CANDIDATE"

/-- Publisher path `handleTranscript(block)` of `Interview.tsx`: after the DOM append and
the Context update it unconditionally calls
`sendTranscript(speakerLabel, block.transcript, block.timestamp)`.
The function keeps no record of block ids it has already forwarded.
Returns the ControlChannel messages put on the wire by this invocation. -/
def handleTranscript (ws : Option ReadyState) (b : AudioBlock) : List TranscriptMsg :=
  (sendTranscript ws (speakerLabel b) (some b.transcript) (some b.timestamp) b.timestamp).2

/-! ### ControlChannel reconnect/backoff -/

/-- Reconnect bookkeeping: `reconnectAttemptsRef` and
`reconnectDelayRef`.  The bounded attempt count
(`maxReconnectAttemptsRef`) is 5 in every hook variant. -/
structure ReconnState where
  attempts : Nat
  delay : Nat
  deriving DecidableEq, Repr

/-- Initial refs of `useWebSocketOptimized` / frontend `useWebSocket`:
`reconnectAttemptsRef = useRef(0)`, `reconnectDelayRef = useRef(3000)`. -/
def initialReconn : ReconnState := ⟨0, 3000⟩

/-- Function `useWebSocketOptimized.handleClose` / frontend `useWebSocket.handleClose`
(identical): `if (event?.code !== 1000 && attempts < max) { attempts += 1;
const delay = delayRef; setTimeout(connect, delay); delayRef =
Math.min(delayRef * 2, 30000) }`.  `code : Option Nat` models
`event?.code` (`none` = no event object).  Returns the new refs and the
delay of the reconnect scheduled by this call (`none` = no reconnect
scheduled). -/
def handleClose (st : ReconnState) (code : Option Nat) : ReconnState × Option Nat :=
  if code ≠ some 1000 ∧ st.attempts < 5 then
    (⟨st.attempts + 1, min (st.delay * 2) 30000⟩, some st.delay)
  else (st, none)

/-- Handler `socket.onopen` of `useWebSocketOptimized.connect` / frontend
`useWebSocket.connect`: `reconnectAttemptsRef.current = 0` — the delay
ref is not touched. -/
def handleOpen (st : ReconnState) : ReconnState := ⟨0, st.delay⟩

/-- A run of closures: fold `handleClose` over a list of close codes,
collecting the scheduled reconnect delays in order. -/
def runCloses (st : ReconnState) : List (Option Nat) → ReconnState × List Nat
  | [] => (st, [])
  | c :: rest =>
    let r := handleClose st c
    let r' := runCloses r.1 rest
    (r'.1, r.2.toList ++ r'.2)

/-- Expected delay schedule of `k` consecutive abnormal closures
starting at attempt count `n`: `min (3000·2ⁿ) 30000`, then the tail one
attempt deeper. -/
def expectedDelays : Nat → Nat → List Nat
  | _, 0 => []
  | n, k + 1 => min (3000 * 2 ^ n) 30000 :: expectedDelays (n + 1) k

/-- Initial refs of the legacy `ainterview-web` `useWebSocket`:
`reconnectAttemptsRef = useRef(0)`, `reconnectDelayRef = useRef(1000)`. -/
def awInitialReconn : ReconnState := ⟨0, 1000⟩

/-- Legacy `handleClose` of `ainterview-web/src/hooks/useWebSocket.ts`: declared
with no event parameter, so the close code is not inspected at all —
`if (attempts < max) { attempts += 1; setTimeout(connect, delayRef);
delayRef = Math.min(delayRef * 2, 30000) }`. -/
def awHandleClose (st : ReconnState) : ReconnState × Option Nat :=
  if st.attempts < 5 then
    (⟨st.attempts + 1, min (st.delay * 2) 30000⟩, some st.delay)
  else (st, none)

/-- Legacy `handleOpen` of `ainterview-web`: resets both refs
(`attempts = 0; delay = 1000`). -/
def awHandleOpen (_st : ReconnState) : ReconnState := ⟨0, 1000⟩

/-! ### AudioFrameProducer: frame send guard and worklet fallback
(`useAudioCapture.ts`) -/

/-- The audio callback installed in `onopen` of `startHrRecording` /
`startCandidateRecording`: `(audioChunk) => { if (wsRef.current?.readyState
=== WebSocket.OPEN) { wsRef.current.send(audioChunk) } }` — no other
branch, no buffer.  Returns the frames put on the wire. -/
def sendAudioFrame {α : Type} (ws : Option ReadyState) (audioChunk : α) : List α :=
  match ws with
  | some rs => if rs = ReadyState.OPEN then [audioChunk] else []
  | none => []

/-- How PCM frames reach the `onAudioCallback` after `startRecording`. -/
inductive FrameDelivery
  | worklet     -- worklet `port.onmessage` feeds `onAudioCallback`
  | noDelivery  -- fallback: `source.connect(audioContext.destination)` only
  deriving DecidableEq, Repr

/-- Observable outcome of `createMicrophone().startRecording` /
`createCandidateMicrophone().startRecording`. -/
structure StartResult where
  delivery : FrameDelivery
  errorSurfaced : Bool
  warnLogged : Bool
  deriving DecidableEq, Repr

/-- The `try { ... addModule ... } catch (workletError) { console.warn(...);
source.connect(audioContext.destination) }` block of both
`startRecording` implementations in `useAudioCapture.ts`.  On the
worklet path the `port.onmessage` handler is installed and frames flow
to the callback; in the catch branch the only statements are a
`console.warn` and a direct source→destination connection — no call to
`onAudioCallback`, no `setError`, no rethrow. -/
def startRecording (workletAvailable : Bool) : StartResult :=
  if workletAvailable then ⟨FrameDelivery.worklet, false, false⟩
  else ⟨FrameDelivery.noDelivery, false, true⟩

/-- The worklet `port.onmessage` body: merge the incoming samples into
`audioBufferQueue`; once `bufferDuration >= 100` (i.e. at least
`floor(16000*0.1) = 1600` samples), emit one frame of the first 1600
samples and keep the rest.  Returns the new queue and the frames
handed to `onAudioCallback`. -/
def workletOnMessage (audioBufferQueue audioData : List Int) : List Int × List (List Int) :=
  let merged := audioBufferQueue ++ audioData
  if 1600 ≤ merged.length then (merged.drop 1600, [merged.take 1600])
  else (merged, [])

end AIIA

namespace AIIA

/-! ## Shared lemmas -/

/-- Dropping a leading space does not change the trimmed value. -/
lemma jsTrim_space_append (t : String) : jsTrim (" " ++ t) = jsTrim t := by
  obtain ⟨l⟩ := t
  show jsTrim ⟨' ' :: l⟩ = jsTrim ⟨l⟩
  simp [jsTrim, List.dropWhile]

/-- Display text of a state with empty committed text and a single slot. -/
lemma displayOf_empty_single (k : Nat) (t : String) : displayOf "" [(k, t)] = jsTrim t := by
  have h : displayOf "" [(k, t)] = jsTrim (" " ++ t) := rfl
  rw [h, jsTrim_space_append]

/-! ## Claims -/

/-- Claim C6: The cited legacy ControlChannel (`ainterview-web`
`useWebSocket.handleClose`) ignores the close code entirely, so a
client-initiated (code 1000) closure at attempt count 0 still schedules
a reconnect after the current 1000ms delay — contradicting the claim
(and the handler's own comment "Attempt to reconnect if not
intentionally closed").  The frontend variants
(`useWebSocketLite.ts`/frontend `useWebSocket.ts` `handleClose`) do
behave as claimed: code 1000 never schedules a reconnect, and any other
code schedules one only while the attempt count is below the bound. -/
theorem aw_clean_close_schedules_reconnect :
    awHandleClose awInitialReconn = (⟨1, 2000⟩, some 1000) ∧
    (∀ st : ReconnState, handleClose st (some 1000) = (st, none)) ∧
    (∀ st : ReconnState, ∀ c : Option Nat,
      handleClose ⟨5, st.delay⟩ c = (⟨5, st.delay⟩, none)) := by
  refine ⟨by decide, fun st => ?_, fun st c => ?_⟩
  · simp [handleClose]
  · simp [handleClose]

/-- Claim C7: `send(message)` returns `true` exactly when the socket ref is
non-null and Open, in which case the message is put on the wire; in
every other state (null ref, CONNECTING, CLOSING, CLOSED) it returns
`false` and the message is dropped — the hook keeps no queue and never
retries. -/
theorem send_dispatch_characterization {α : Type} (ws : Option ReadyState) (m : α) :
    send ws m = (if ws = some ReadyState.OPEN then (true, [m]) else (false, [])) ∧
    send (some ReadyState.CONNECTING) m = (false, []) := by
  refine ⟨?_, rfl⟩
  rcases ws with _ | rs
  · simp [send]
  · rcases rs <;> simp [send]

/-- Claim C8: The audio callback installed by
`startHrRecording`/`startCandidateRecording` transmits the frame exactly
when the transcription socket is Open, and otherwise drops it; the
callback has no other branch, so no frame is buffered and none is ever
transmitted on a non-Open socket. -/
theorem audio_frame_drop_characterization {α : Type} (ws : Option ReadyState) (audioChunk : α) :
    sendAudioFrame ws audioChunk = (if ws = some ReadyState.OPEN then [audioChunk] else []) := by
  rcases ws with _ | rs
  · simp [sendAudioFrame]
  · rcases rs <;> simp [sendAudioFrame]

/-- Claim C9, counterexample:  With the worklet path unavailable, the
fallback neither delivers frames via the callback nor surfaces an
error: both `startRecording` implementations only log a warning and
connect the source straight to the destination. -/
theorem fallback_silent_cex :
    ¬ ((startRecording false).delivery ≠ FrameDelivery.noDelivery ∨
       (startRecording false).errorSurfaced = true) := by
  decide

/-- Claim C9, amended:  When the worklet-style path is unavailable the
producer falls back to a direct source→destination connection, logging
a console warning; on this fallback path no PCM frames are delivered
via the callback and no error is surfaced to the caller.  When the
worklet path is available, frames are delivered through the worklet
handler. -/
theorem worklet_fallback_outcome :
    startRecording false = ⟨FrameDelivery.noDelivery, false, true⟩ ∧
    startRecording true = ⟨FrameDelivery.worklet, false, false⟩ := by
  decide

/-- Claim C10: `sendTranscript` returns `false` and performs no
ControlChannel send whenever the text argument is absent or trims to
the empty string, for every speaker and every socket state. -/
theorem sendTranscript_blank_drops (ws : Option ReadyState) (speaker : String)
    (text : Option String) (timestamp : Option Nat) (now : Nat)
    (h : ∀ t, text = some t → jsTrim t = "") :
    sendTranscript ws speaker text timestamp now = (false, []) := by
  rcases text with _ | t
  · rfl
  · have ht := h t rfl
    simp [sendTranscript, ht]

/-- Witness for `sendTranscript_blank_drops` at a whitespace-only text
and an Open socket. -/
theorem sendTranscript_blank_drops_witness :
    jsTrim "   " = "" ∧
    sendTranscript (some ReadyState.OPEN) "HR" (some "   ") none 7 = (false, []) := by
  refine ⟨by decide, sendTranscript_blank_drops _ _ _ _ _ ?_⟩
  intro t ht
  injection ht with h
  subst h
  decide

/-- Claim C3 (code bug): Stopping a producer mid-utterance flushes
nothing.  The stop-time flush in `stopHrRecording` /
`stopCandidateRecording` reads the committed-text ref
(`hrBlockTranscriptRef` / `candidateBlockTranscriptRef`), but that ref
is only ever assigned the empty string (at session start and at each
finalize); the in-flight text lives in the `activeTurns` slots and is
never copied into it.  At a state with display text "I think the" the
flush emits no Final block, and the third conjunct shows the
committed text stays empty across every `onmessage` step, so the flush
guard can never fire in any reachable state. -/
theorem stop_mid_utterance_flushes_nothing :
    stopFlush "HR" ⟨100, "", [(0, "I think the")], false⟩ 500 = [] ∧
    displayOf "" [(0, "I think the")] = "I think the" ∧
    (∀ (speaker : String) (s : AsmState) (e : TurnEvent) (now : Nat),
      (handleTurn speaker { s with committedText := "" } e now).state.committedText = "") := by
  refine ⟨by decide, by decide, fun speaker s e now => ?_⟩
  unfold handleTurn
  split <;> rfl

/-- Claim C2, counterexample:  Invoking the publisher path
(`Interview.tsx` `handleTranscript`) twice for the same already-final
block id forwards the ControlChannel transcript-append twice — more
than "at most once". -/
theorem publisher_double_forward_cex :
    ¬ ((handleTranscript (some ReadyState.OPEN) ⟨100, "HR", "hello", 5⟩ ++
        handleTranscript (some ReadyState.OPEN) ⟨100, "HR", "hello", 5⟩).length ≤ 1) := by
  decide

/-- Claim C2, amended:  The publisher's `onBlock` path keeps no record of
forwarded ids: every invocation whose transcript has non-blank trim
forwards exactly one transcript-append while the socket is Open, so two
invocations for the same id forward twice.  There is no dedup re-check
at this layer; at-most-once per id relies solely on the assembler's
emission. -/
theorem publisher_no_id_dedup (b : AudioBlock) (h : jsTrim b.transcript ≠ "") :
    handleTranscript (some ReadyState.OPEN) b =
      [⟨jsToLower (speakerLabel b), b.transcript, b.timestamp⟩] ∧
    handleTranscript (some ReadyState.OPEN) b ++ handleTranscript (some ReadyState.OPEN) b =
      [⟨jsToLower (speakerLabel b), b.transcript, b.timestamp⟩,
       ⟨jsToLower (speakerLabel b), b.transcript, b.timestamp⟩] := by
  have h1 : handleTranscript (some ReadyState.OPEN) b =
      [⟨jsToLower (speakerLabel b), b.transcript, b.timestamp⟩] := by
    simp [handleTranscript, sendTranscript, send, h]
  exact ⟨h1, by rw [h1]; rfl⟩

/-- Witness for `publisher_no_id_dedup` at a concrete Final block. -/
theorem publisher_no_id_dedup_witness :
    jsTrim "hello" ≠ "" ∧
    (handleTranscript (some ReadyState.OPEN) ⟨100, "HR", "hello", 5⟩ ++
     handleTranscript (some ReadyState.OPEN) ⟨100, "HR", "hello", 5⟩ =
      [⟨jsToLower (speakerLabel ⟨100, "HR", "hello", 5⟩), "hello", 5⟩,
       ⟨jsToLower (speakerLabel ⟨100, "HR", "hello", 5⟩), "hello", 5⟩]) :=
  ⟨by decide, (publisher_no_id_dedup ⟨100, "HR", "hello", 5⟩ (by decide)).2⟩

/-- Claim C4, counterexample:  Two abnormal closures double the delay ref
to 12000; the subsequent successful re-Open resets only the attempt
count, and the next abnormal closure schedules its reconnect with the
retained 12000ms, not the initial 3000ms. -/
theorem reopen_keeps_doubled_delay_cex :
    (handleOpen (handleClose (handleClose initialReconn (some 1006)).1 (some 1006)).1).delay
      = 12000 ∧
    (handleClose
      (handleOpen (handleClose (handleClose initialReconn (some 1006)).1 (some 1006)).1)
      (some 1006)).2 = some 12000 ∧
    (12000 : Nat) ≠ 3000 := by
  decide

/-- Claim C4, amended:  A successful re-Open (`socket.onopen`) resets the
reconnect attempt count to 0 but leaves the next reconnect delay
untouched, so a later abnormal closure schedules its reconnect with the
last doubled, capped delay rather than restarting from the initial
3000ms. -/
theorem reopen_resets_attempts_not_delay (st : ReconnState) (c : Option Nat)
    (h : c ≠ some 1000) :
    handleOpen st = ⟨0, st.delay⟩ ∧
    (handleClose (handleOpen st) c).2 = some st.delay := by
  refine ⟨rfl, ?_⟩
  simp [handleClose, handleOpen, h]

/-- Witness for `reopen_resets_attempts_not_delay` after a run that
doubled the delay to 24000. -/
theorem reopen_resets_attempts_not_delay_witness :
    (some 1006 : Option Nat) ≠ some 1000 ∧
    (handleOpen ⟨3, 24000⟩ = (⟨0, 24000⟩ : ReconnState) ∧
     (handleClose (handleOpen ⟨3, 24000⟩) (some 1006)).2 = some 24000) :=
  ⟨by decide, reopen_resets_attempts_not_delay ⟨3, 24000⟩ (some 1006) (by decide)⟩

/-- Claim C1, counterexample:  Delivering the same finalizing TurnEvent
twice to a fresh assembler emits two Final blocks, not one: the sent
flag is set and then cleared again inside the same synchronous finalize
reset, so the duplicate delivery finalizes again under the freshly
minted block id. -/
theorem duplicate_finalize_two_finals_cex :
    (deliverTwice "HR" ⟨100, "", [], false⟩ ⟨"hello", true, true, 0⟩ 200 300).length = 2 ∧
    ¬ ((deliverTwice "HR" ⟨100, "", [], false⟩ ⟨"hello", true, true, 0⟩ 200 300).length = 1) := by
  decide

/-- Claim C1, amended:  Each delivery of a finalizing TurnEvent
(`end_of_turn ∧ turn_is_formatted`, non-blank transcript, flag clear,
non-empty display text) emits exactly one Final block and synchronously
resets the channel — clearing slots and committed text, minting a fresh
block id, and clearing the sent flag.  Delivering the same finalizing
TurnEvent twice therefore emits two Final blocks, one per delivery: the
first under the original block id with the merged display text, the
second under the id minted at the first finalize, carrying the event's
trimmed transcript. -/
theorem assembler_duplicate_finalize (speaker : String) (s : AsmState) (e : TurnEvent)
    (n₁ n₂ : Nat)
    (hEot : e.end_of_turn = true) (hFmt : e.turn_is_formatted = true)
    (hSent : s.blockSent = false)
    (hDisp : displayAfter s e ≠ "")
    (hTr : jsTrim e.transcript ≠ "") :
    deliverTwice speaker s e n₁ n₂ =
      [⟨s.blockId, speaker, displayAfter s e, n₁⟩,
       ⟨n₁, speaker, jsTrim e.transcript, n₂⟩] := by
  have htne : e.transcript ≠ "" := fun hh => hTr (by rw [hh]; rfl)
  have hc1 : e.end_of_turn ∧ e.turn_is_formatted ∧ displayAfter s e ≠ "" ∧ s.blockSent = false :=
    ⟨hEot, hFmt, hDisp, hSent⟩
  have h1 : handleTurn speaker s e n₁ =
      { state := ⟨n₁, "", [], false⟩,
        partials := [⟨s.blockId, speaker, displayAfter s e, n₁⟩],
        finals := [⟨s.blockId, speaker, displayAfter s e, n₁⟩] } := by
    unfold handleTurn
    rw [if_pos hc1, if_pos hDisp]
  have hslots : slotsAfter (⟨n₁, "", [], false⟩ : AsmState) e =
      [(e.turn_order, e.transcript)] := by
    simp [slotsAfter, htne, updateSlot]
  have hdisp2 : displayAfter (⟨n₁, "", [], false⟩ : AsmState) e = jsTrim e.transcript := by
    unfold displayAfter
    rw [hslots]
    exact displayOf_empty_single _ _
  have hc2 : e.end_of_turn ∧ e.turn_is_formatted ∧
      displayAfter (⟨n₁, "", [], false⟩ : AsmState) e ≠ "" ∧
      (⟨n₁, "", [], false⟩ : AsmState).blockSent = false :=
    ⟨hEot, hFmt, by rw [hdisp2]; exact hTr, rfl⟩
  have h2 : handleTurn speaker ⟨n₁, "", [], false⟩ e n₂ =
      { state := ⟨n₂, "", [], false⟩,
        partials := [⟨n₁, speaker, jsTrim e.transcript, n₂⟩],
        finals := [⟨n₁, speaker, jsTrim e.transcript, n₂⟩] } := by
    unfold handleTurn
    rw [if_pos hc2, hdisp2, if_pos hTr]
  simp only [deliverTwice, h1]
  simp only [h2]
  rfl

/-- Witness for `assembler_duplicate_finalize`: a fresh HR assembler and
the finalizing event `{transcript:"hello", end_of_turn:true,
turn_is_formatted:true, turn_order:0}` delivered at times 200 and 300. -/
theorem assembler_duplicate_finalize_witness :
    ((⟨"hello", true, true, 0⟩ : TurnEvent).end_of_turn = true ∧
     (⟨100, "", [], false⟩ : AsmState).blockSent = false ∧
     displayAfter ⟨100, "", [], false⟩ ⟨"hello", true, true, 0⟩ ≠ "" ∧
     jsTrim "hello" ≠ "") ∧
    deliverTwice "HR" ⟨100, "", [], false⟩ ⟨"hello", true, true, 0⟩ 200 300 =
      [⟨100, "HR", displayAfter ⟨100, "", [], false⟩ ⟨"hello", true, true, 0⟩, 200⟩,
       ⟨200, "HR", jsTrim "hello", 300⟩] :=
  ⟨by decide,
   assembler_duplicate_finalize "HR" ⟨100, "", [], false⟩ ⟨"hello", true, true, 0⟩ 200 300
     rfl rfl rfl (by decide) (by decide)⟩

/-- Element `i` of the expected schedule is `min (3000·2^(n+i)) 30000`. -/
lemma expectedDelays_get (k : Nat) :
    ∀ n i : Nat, i < k → (expectedDelays n k)[i]? = some (min (3000 * 2 ^ (n + i)) 30000) := by
  induction k with
  | zero => intro n i hi; omega
  | succ k ih =>
    intro n i hi
    match i with
    | 0 => simp [expectedDelays]
    | i + 1 =>
      have hh : n + 1 + i = n + (i + 1) := by omega
      rw [show expectedDelays n (k + 1) =
            min (3000 * 2 ^ n) 30000 :: expectedDelays (n + 1) k from rfl,
        List.getElem?_cons_succ, ih (n + 1) i (by omega), hh]

/-- Main induction for the backoff schedule: starting at attempt count
`n` with the delay ref holding `min (3000·2ⁿ) 30000`, a run of abnormal
closures schedules exactly the expected capped-doubling delays. -/
lemma runCloses_delays (codes : List (Option Nat)) :
    ∀ n : Nat, (∀ c ∈ codes, c ≠ some 1000) → n + codes.length ≤ 5 →
      (runCloses ⟨n, min (3000 * 2 ^ n) 30000⟩ codes).2 = expectedDelays n codes.length := by
  induction codes with
  | nil => intro n _ _; rfl
  | cons c rest ih =>
    intro n hcodes hlen
    have hc : c ≠ some 1000 := hcodes c (List.mem_cons_self c rest)
    have hlt : n < 5 := by
      simp only [List.length_cons] at hlen
      omega
    have hstep : handleClose ⟨n, min (3000 * 2 ^ n) 30000⟩ c =
        (⟨n + 1, min (3000 * 2 ^ (n + 1)) 30000⟩, some (min (3000 * 2 ^ n) 30000)) := by
      unfold handleClose
      rw [if_pos ⟨hc, hlt⟩]
      have harith : min (min (3000 * 2 ^ n) 30000 * 2) 30000 =
          min (3000 * 2 ^ (n + 1)) 30000 := by
        rw [pow_succ]
        omega
      rw [harith]
    simp only [runCloses, hstep]
    rw [ih (n + 1) (fun c' hc' => hcodes c' (List.mem_cons_of_mem c hc'))
      (by simp only [List.length_cons] at hlen; omega)]
    rfl

/-- Claim C5: Starting from the initial backoff state (attempts 0, delay
3000ms, cap 30000ms, at most 5 attempts), in a run of `N ≤ 5`
consecutive abnormal closures the delay scheduled before reconnect
attempt `k` (`1 ≤ k ≤ N`) equals `min(3000·2^(k−1), 30000)`: the
current delay is used for attempt `k` and then doubled, capped, ready
for attempt `k+1`. -/
theorem backoff_delay_schedule (codes : List (Option Nat))
    (habn : ∀ c ∈ codes, c ≠ some 1000) (hlen : codes.length ≤ 5)
    (k : Nat) (hk1 : 1 ≤ k) (hk2 : k ≤ codes.length) :
    ((runCloses initialReconn codes).2)[k - 1]? =
      some (min (3000 * 2 ^ (k - 1)) 30000) := by
  have h0 : initialReconn = (⟨0, min (3000 * 2 ^ 0) 30000⟩ : ReconnState) := by decide
  rw [h0, runCloses_delays codes 0 habn (by omega)]
  have h := expectedDelays_get codes.length 0 (k - 1) (by omega)
  simpa using h

/-- Witness for `backoff_delay_schedule`: five abnormal closures (codes
1006, undefined, 1001, 3000, 1); the delay before attempt 5 is
`min(3000·2⁴, 30000) = 30000` ms. -/
theorem backoff_delay_schedule_witness :
    ((∀ c ∈ ([some 1006, none, some 1001, some 3000, some 1] : List (Option Nat)),
        c ≠ some 1000) ∧
      ([some 1006, none, some 1001, some 3000, some 1] : List (Option Nat)).length ≤ 5 ∧
      1 ≤ 5 ∧
      5 ≤ ([some 1006, none, some 1001, some 3000, some 1] : List (Option Nat)).length) ∧
    ((runCloses initialReconn [some 1006, none, some 1001, some 3000, some 1]).2)[5 - 1]? =
      some (min (3000 * 2 ^ (5 - 1)) 30000) :=
  ⟨⟨by decide, by decide, by decide, by decide⟩,
   backoff_delay_schedule _ (by decide) (by decide) 5 (by decide) (by decide)⟩

end AIIA
